import Mathlib

/-!
# Verification of the go-xmlrpc response decoder and transport codec

A shallow embedding, in Lean 4, of the parts of the `alexejk/go-xmlrpc`
client library that the verified claims are about:

* the parsed wire value model (`ResponseValue`, `Response`, `ResponseFault`)
  as used by `decode.go` (the type declarations themselves live in a file
  that is not part of the snapshot; their shape is reconstructed from the
  spec's Wire Value Model section and from every access `decode.go` makes:
  pointer-valued scalar tags, `Array.Values`, `Struct` member list, `RawXML`);
* `fault.go` (the `Fault` error value);
* `decode.go` (`StdDecoder`: `DecodeRaw`, `Decode`, `DecodeFault`,
  `decodeFault`, `decodeValue`, the scalar decoders, `fieldsMustEqual`,
  `structMemberToFieldName`, `getFieldNameFromTag`, `findFieldByNameOrTag`);
* the transport `Codec` (`WriteRequest`, `ReadResponseHeader`, `Close`),
  modelled as a small interleaving transition system over the pending
  table, the unbuffered `ready` channel and the `shutdown` channel.

Go `reflect` values that decoding targets can take are deep-embedded as
`GoValue`/`GoType`; Go standard library calls (`strconv.Atoi`,
`strconv.ParseFloat`, `base64.StdEncoding.DecodeString`,
`time.Parse(time.RFC3339, _)`) are given executable models that cover the
forms the library feeds them.  Decoding in Go mutates the target in place;
here every decode function returns the updated target.
-/

/-- Alias for `String`, used in signatures where a source-named projection
called `String` would otherwise shadow the type. -/
abbrev Str := String

namespace GoXmlrpc

/-! ## Errors

All failures `decode.go` produces are `fmt.Errorf` strings, except the
fault path of `DecodeRaw`, which returns the decoded `*Fault` itself as
the `error`.  `%w`-wrapping is modelled by prefixing the wrapped error's
message. -/

/-- `fault.go`: `type Fault struct { Code int; String string }`. -/
structure Fault where
  Code : Int
  String : Str
deriving DecidableEq, Repr

/-- `fault.go`: `func (f *Fault) Error() string`. -/
def Fault.Error (f : Fault) : Str :=
  let c := f.Code
  let s := f.String
  s!"{c}: {s}"

/-- The error values the decoder can return: an `fmt.Errorf`-style message
or a remote `Fault` (which implements Go's `error`). -/
inductive GoError where
  | decodeError (msg : String)
  | faultError (f : Fault)
deriving DecidableEq, Repr

/-- Go `err.Error()` on a modelled error. -/
def GoError.message : GoError → String
  | .decodeError m => m
  | .faultError f => f.Error

/-! ## The parsed wire value model

`decode.go` accesses a value as a record of optional scalar tag texts, an
optional array (`value.Array.Values`, collapsed here to the list itself),
a member list and the raw inner XML.  Exactly mirroring the `switch` in
`decodeValue`, absence of a tag is `none`; a present-but-empty element is
`some ""`. -/

inductive ResponseValue where
  | mk (int int4 double boolean str base64 dateTime : Option String)
       (array : Option (List ResponseValue))
       (members : List (String × ResponseValue))
       (rawXML : String)

/-- `value.Int` (text of the `<int>` tag, if present). -/
def ResponseValue.Int : ResponseValue → Option Str
  | ⟨i, _, _, _, _, _, _, _, _, _⟩ => i

/-- `value.Int4` (text of the `<i4>` tag, if present). -/
def ResponseValue.Int4 : ResponseValue → Option Str
  | ⟨_, i, _, _, _, _, _, _, _, _⟩ => i

/-- `value.Double`. -/
def ResponseValue.Double : ResponseValue → Option Str
  | ⟨_, _, d, _, _, _, _, _, _, _⟩ => d

/-- `value.Boolean`. -/
def ResponseValue.Boolean : ResponseValue → Option Str
  | ⟨_, _, _, b, _, _, _, _, _, _⟩ => b

/-- `value.String`. -/
def ResponseValue.String : ResponseValue → Option Str
  | ⟨_, _, _, _, s, _, _, _, _, _⟩ => s

/-- `value.Base64`. -/
def ResponseValue.Base64 : ResponseValue → Option Str
  | ⟨_, _, _, _, _, b, _, _, _, _⟩ => b

/-- `value.DateTime`. -/
def ResponseValue.DateTime : ResponseValue → Option Str
  | ⟨_, _, _, _, _, _, d, _, _, _⟩ => d

/-- `value.Array` (`nil` pointer vs. present `.Values` list). -/
def ResponseValue.Array : ResponseValue → Option (List ResponseValue)
  | ⟨_, _, _, _, _, _, _, a, _, _⟩ => a

/-- `value.Struct` (the `<member>` list; a member is `{Name, Value}`). -/
def ResponseValue.Struct : ResponseValue → List (Str × ResponseValue)
  | ⟨_, _, _, _, _, _, _, _, m, _⟩ => m

/-- `value.RawXML` (the `xml:",innerxml"` default text). -/
def ResponseValue.RawXML : ResponseValue → Str
  | ⟨_, _, _, _, _, _, _, _, _, r⟩ => r

/-- One `<param>` of a response. -/
structure ResponseParam where
  Value : ResponseValue

/-- The `<fault>` branch: a single struct-shaped value. -/
structure ResponseFault where
  Value : ResponseValue

/-- A parsed response: ordered params and/or fault branch, exactly as the
XML unmarshaller would populate them. -/
structure Response where
  Params : List ResponseParam
  Fault : Option ResponseFault

/-! ## Modelled Go standard library calls -/

/-- Numeric value of a digit run. -/
def digitsVal (cs : List Char) : Nat :=
  cs.foldl (fun a c => a * 10 + (c.toNat - 48)) 0

/-- Largest `int64`, the range `strconv.Atoi` clamps to on 64-bit Go. -/
def int64Max : Int := 9223372036854775807

/-- Smallest `int64`. -/
def int64Min : Int := -9223372036854775808

/-- Model of Go `strconv.Atoi` (= `ParseInt(s, 10, 64)` on 64-bit):
returns the Go convention pair (value, error).  On syntax error the value
is `0`; on range error it is the clamped extreme of the matching sign. -/
def strconvAtoi (s : String) : Int × Option GoError :=
  let (neg, digits) :=
    match s.data with
    | '-' :: rest => (true, rest)
    | '+' :: rest => (false, rest)
    | cs => (false, cs)
  if digits = [] ∨ ¬ digits.all (fun c => c.isDigit) then
    (0, some (.decodeError s!"strconv.Atoi: parsing \"{s}\": invalid syntax"))
  else
    let v : Int := if neg then -(digitsVal digits : Int) else (digitsVal digits : Int)
    if v > int64Max then
      (int64Max, some (.decodeError s!"strconv.Atoi: parsing \"{s}\": value out of range"))
    else if v < int64Min then
      (int64Min, some (.decodeError s!"strconv.Atoi: parsing \"{s}\": value out of range"))
    else (v, none)

/-- Model of Go `strconv.ParseFloat(s, 64)` restricted to the plain
decimal forms (`[+-]digits[.digits][eE[+-]digits]`); the hexadecimal,
`Inf` and `NaN` spellings the library never produces are rejected. -/
def goParseFloat (s : String) : Except GoError Float :=
  let err : Except GoError Float :=
    .error (.decodeError s!"strconv.ParseFloat: parsing \"{s}\": invalid syntax")
  let (neg, rest) :=
    match s.data with
    | '-' :: cs => (true, cs)
    | '+' :: cs => (false, cs)
    | cs => (false, cs)
  let intPart := rest.takeWhile (fun c => c.isDigit)
  let rest1 := rest.dropWhile (fun c => c.isDigit)
  let (fracPart, rest2) :=
    match rest1 with
    | '.' :: cs => (cs.takeWhile (fun c => c.isDigit), cs.dropWhile (fun c => c.isDigit))
    | cs => ([], cs)
  if intPart = [] ∧ fracPart = [] then err
  else
    let mantissa := digitsVal (intPart ++ fracPart)
    let fracLen := fracPart.length
    match rest2 with
    | [] =>
      let f := Float.ofScientific mantissa true fracLen
      .ok (if neg then -f else f)
    | e :: cs =>
      if e = 'e' ∨ e = 'E' then
        let (eNeg, eDigits) :=
          match cs with
          | '-' :: ds => (true, ds)
          | '+' :: ds => (false, ds)
          | ds => (false, ds)
        if eDigits = [] ∨ ¬ eDigits.all (fun c => c.isDigit) then err
        else
          let e := digitsVal eDigits
          let f :=
            if eNeg ∨ e < fracLen then
              Float.ofScientific mantissa true (fracLen + (if eNeg then e else 0) - (if eNeg then 0 else e))
            else
              Float.ofScientific (mantissa * 10 ^ (e - fracLen)) false 0
          .ok (if neg then -f else f)
      else err

/-- 6-bit value of a standard base64 alphabet character. -/
def base64CharVal (c : Char) : Option Nat :=
  if 'A' ≤ c ∧ c ≤ 'Z' then some (c.toNat - 65)
  else if 'a' ≤ c ∧ c ≤ 'z' then some (c.toNat - 97 + 26)
  else if '0' ≤ c ∧ c ≤ '9' then some (c.toNat - 48 + 52)
  else if c = '+' then some 62
  else if c = '/' then some 63
  else none

/-- Decode one 4-character base64 group (`p` = number of `=` pads). -/
def base64Group (a b : Nat) (c d : Option Nat) : List Nat :=
  match c, d with
  | none, _ => [(a * 4 + b / 16) % 256]
  | some c, none => [(a * 4 + b / 16) % 256, (b * 16 + c / 4) % 256]
  | some c, some d => [(a * 4 + b / 16) % 256, (b * 16 + c / 4) % 256, (c * 64 + d) % 256]

/-- Work loop of the `base64.StdEncoding.DecodeString` model. -/
def base64Loop : List Char → Except GoError (List Nat)
  | [] => .ok []
  | c1 :: c2 :: c3 :: c4 :: rest =>
    let err : Except GoError (List Nat) :=
      .error (.decodeError "illegal base64 data")
    match base64CharVal c1, base64CharVal c2 with
    | some a, some b =>
      if c3 = '=' ∧ c4 = '=' then
        if rest = [] then .ok (base64Group a b none none) else err
      else if c4 = '=' then
        match base64CharVal c3 with
        | some c => if rest = [] then .ok (base64Group a b (some c) none) else err
        | none => err
      else
        match base64CharVal c3, base64CharVal c4 with
        | some c, some d => do
          let tail ← base64Loop rest
          .ok (base64Group a b (some c) (some d) ++ tail)
        | _, _ => err
    | _, _ => err
  | _ => .error (.decodeError "illegal base64 data")

/-- Model of Go `base64.StdEncoding.DecodeString`: padded standard
alphabet, groups of four characters. -/
def goBase64Decode (s : String) : Except GoError (List Nat) :=
  base64Loop s.data

/-- A Go `time.Time` in broken-down form, with the originating offset. -/
structure GoTime where
  year : Nat
  month : Nat
  day : Nat
  hour : Nat
  minute : Nat
  second : Nat
  nanoDigits : List Char
  offsetMinutes : Int
deriving DecidableEq, Repr

/-- Go's zero `time.Time{}`: January 1, year 1, 00:00:00 UTC. -/
def GoTime.zero : GoTime :=
  { year := 1, month := 1, day := 1, hour := 0, minute := 0, second := 0,
    nanoDigits := [], offsetMinutes := 0 }

/-- Read exactly `n` digits. -/
def readDigits : Nat → List Char → Option (Nat × List Char)
  | 0, cs => some (0, cs)
  | n + 1, c :: cs =>
    if c.isDigit then
      (readDigits n cs).map (fun vr => ((c.toNat - 48) * 10 ^ n + vr.1, vr.2))
    else none
  | _ + 1, [] => none

/-- Model of Go `time.Parse(time.RFC3339, s)`:
`YYYY-MM-DDTHH:MM:SS[.fraction](Z|±HH:MM)` with basic range validation. -/
def goParseRFC3339 (s : String) : Except GoError GoTime := do
  let err : GoError :=
    .decodeError s!"parsing time \"{s}\" as RFC3339: cannot parse"
  let step (oc : Option (Nat × List Char)) : Except GoError (Nat × List Char) :=
    match oc with | some r => .ok r | none => .error err
  let sep (c : Char) (cs : List Char) : Except GoError (List Char) :=
    match cs with
    | c2 :: rest => if c2 = c then .ok rest else .error err
    | [] => .error err
  let (year, r1) ← step (readDigits 4 s.data)
  let r2 ← sep '-' r1
  let (month, r3) ← step (readDigits 2 r2)
  let r4 ← sep '-' r3
  let (day, r5) ← step (readDigits 2 r4)
  let r6 ← sep 'T' r5
  let (hour, r7) ← step (readDigits 2 r6)
  let r8 ← sep ':' r7
  let (minute, r9) ← step (readDigits 2 r8)
  let r10 ← sep ':' r9
  let (second, r11) ← step (readDigits 2 r10)
  let (nanoDigits, r12) :=
    match r11 with
    | '.' :: cs => (cs.takeWhile (fun c => c.isDigit), cs.dropWhile (fun c => c.isDigit))
    | cs => ([], cs)
  let offsetMinutes : Int ←
    match r12 with
    | ['Z'] => pure (0 : Int)
    | sign :: cs =>
      if sign = '+' ∨ sign = '-' then do
        let (oh, o1) ← step (readDigits 2 cs)
        let o2 ← sep ':' o1
        let (om, o3) ← step (readDigits 2 o2)
        if o3 = [] ∧ oh ≤ 23 ∧ om ≤ 59 then
          pure (if sign = '-' then -((oh * 60 + om : Nat) : Int) else ((oh * 60 + om : Nat) : Int))
        else .error err
      else .error err
    | [] => .error err
  if 1 ≤ month ∧ month ≤ 12 ∧ 1 ≤ day ∧ day ≤ 31 ∧ hour ≤ 23 ∧ minute ≤ 59 ∧ second ≤ 59 then
    .ok { year, month, day, hour, minute, second, nanoDigits, offsetMinutes }
  else .error err

/-! ## The reflection fragment: Go target values and types

`decodeValue` drives itself by `reflect` over the caller's target.  The
fragment of Go's type system the decoder traverses is deep-embedded:
strings, `int`, `uint8`, `float64`, `bool`, `time.Time`, slices, structs
(with `xmlrpc` tags and exported flags), string-keyed maps and the empty
interface.  Pointer auto-vivification (`indirect`) is outside the
modelled fragment: no verified claim concerns pointer-shaped fields. -/

/-- One declared field of a struct type or value: Go field name, the value
of `Tag.Get("xmlrpc")` (empty when the tag is absent), exportedness
(`PkgPath == ""`), and the field's type or current value. -/
structure GoFieldG (α : Type) where
  name : Str
  tag : Str
  exported : Bool
  val : α
deriving Repr

/-- The modelled fragment of Go types. -/
inductive GoType where
  | tString
  | tInt
  | tUint8
  | tFloat64
  | tBool
  | tTime
  | tSlice (elem : GoType)
  | tStruct (fields : List (GoFieldG GoType))
  | tMap (key elem : GoType)
  | tIface
deriving Repr

/-- The modelled fragment of Go values.  A slice or map carries its
element (and key) type so that `reflect.MakeSlice` / `reflect.New` can be
modelled; `none` contents are Go's `nil` slice / `nil` map. -/
inductive GoValue where
  | vString (s : Str)
  | vInt (n : Int)
  | vUint8 (n : Nat)
  | vFloat (f : Float)
  | vBool (b : Bool)
  | vTime (t : GoTime)
  | vSlice (elem : GoType) (contents : Option (List GoValue))
  | vStruct (fields : List (GoFieldG GoValue))
  | vMap (key elem : GoType) (entries : Option (List (Str × GoValue)))
  | vIface (inner : Option GoValue)
deriving Repr

/-- Go `reflect.Kind` of the modelled fragment. -/
inductive GoKind where
  | kString | kInt | kUint8 | kFloat64 | kBool | kSlice | kStruct | kMap | kIface
deriving DecidableEq, Repr

/-- `Kind.String()`. -/
def GoKind.str : GoKind → Str
  | .kString => "string"
  | .kInt => "int"
  | .kUint8 => "uint8"
  | .kFloat64 => "float64"
  | .kBool => "bool"
  | .kSlice => "slice"
  | .kStruct => "struct"
  | .kMap => "map"
  | .kIface => "interface"

/-- `reflect.Value.Kind()`.  Note `time.Time` is a struct type in Go, so
its kind is `struct`. -/
def GoValue.kind : GoValue → GoKind
  | .vString _ => .kString
  | .vInt _ => .kInt
  | .vUint8 _ => .kUint8
  | .vFloat _ => .kFloat64
  | .vBool _ => .kBool
  | .vTime _ => .kStruct
  | .vSlice _ _ => .kSlice
  | .vStruct _ => .kStruct
  | .vMap _ _ _ => .kMap
  | .vIface _ => .kIface

/-- `reflect.Kind` of a modelled type. -/
def GoType.kind : GoType → GoKind
  | .tString => .kString
  | .tInt => .kInt
  | .tUint8 => .kUint8
  | .tFloat64 => .kFloat64
  | .tBool => .kBool
  | .tTime => .kStruct
  | .tSlice _ => .kSlice
  | .tStruct _ => .kStruct
  | .tMap _ _ => .kMap
  | .tIface => .kIface

mutual

/-- Structural equality of modelled Go types (Go type identity). -/
def GoType.beq : GoType → GoType → Bool
  | .tString, .tString => true
  | .tInt, .tInt => true
  | .tUint8, .tUint8 => true
  | .tFloat64, .tFloat64 => true
  | .tBool, .tBool => true
  | .tTime, .tTime => true
  | .tSlice a, .tSlice b => a.beq b
  | .tStruct fa, .tStruct fb => GoType.beqFields fa fb
  | .tMap ka ea, .tMap kb eb => ka.beq kb && ea.beq eb
  | .tIface, .tIface => true
  | _, _ => false

/-- Field-list part of `GoType.beq`. -/
def GoType.beqFields : List (GoFieldG GoType) → List (GoFieldG GoType) → Bool
  | [], [] => true
  | f :: fs, g :: gs =>
    f.name = g.name && f.tag = g.tag && f.exported = g.exported
      && f.val.beq g.val && GoType.beqFields fs gs
  | _, _ => false

end

mutual

/-- `reflect.Type.String()` for the modelled fragment. -/
def GoType.str : GoType → Str
  | .tString => "string"
  | .tInt => "int"
  | .tUint8 => "uint8"
  | .tFloat64 => "float64"
  | .tBool => "bool"
  | .tTime => "time.Time"
  | .tSlice e => "[]" ++ e.str
  | .tStruct fs => "struct \x7b " ++ GoType.strFields fs ++ " \x7d"
  | .tMap k e => "map[" ++ k.str ++ "]" ++ e.str
  | .tIface => "interface \x7b\x7d"

/-- Field-list part of `GoType.str`. -/
def GoType.strFields : List (GoFieldG GoType) → Str
  | [] => ""
  | [f] => f.name ++ " " ++ f.val.str
  | f :: fs => f.name ++ " " ++ f.val.str ++ "; " ++ GoType.strFields fs

end

mutual

/-- The Go zero value of a modelled type (`reflect.New(t).Elem()`). -/
def GoType.zero : GoType → GoValue
  | .tString => .vString ""
  | .tInt => .vInt 0
  | .tUint8 => .vUint8 0
  | .tFloat64 => .vFloat 0.0
  | .tBool => .vBool false
  | .tTime => .vTime GoTime.zero
  | .tSlice e => .vSlice e none
  | .tStruct fs => .vStruct (GoType.zeroFields fs)
  | .tMap k e => .vMap k e none
  | .tIface => .vIface none

/-- Field-list part of `GoType.zero`. -/
def GoType.zeroFields : List (GoFieldG GoType) → List (GoFieldG GoValue)
  | [] => []
  | f :: fs => ⟨f.name, f.tag, f.exported, f.val.zero⟩ :: GoType.zeroFields fs

end

mutual

/-- `reflect.TypeOf` of a modelled value. -/
def GoValue.typeOf : GoValue → GoType
  | .vString _ => .tString
  | .vInt _ => .tInt
  | .vUint8 _ => .tUint8
  | .vFloat _ => .tFloat64
  | .vBool _ => .tBool
  | .vTime _ => .tTime
  | .vSlice e _ => .tSlice e
  | .vStruct fs => .tStruct (GoValue.typeOfFields fs)
  | .vMap k e _ => .tMap k e
  | .vIface _ => .tIface

/-- Field-list part of `GoValue.typeOf`. -/
def GoValue.typeOfFields : List (GoFieldG GoValue) → List (GoFieldG GoType)
  | [] => []
  | f :: fs => ⟨f.name, f.tag, f.exported, f.val.typeOf⟩ :: GoValue.typeOfFields fs

end

/-- Go `int(f)` truncation of a `float64` toward zero (used only by the
numeric-conversion table; no verified claim depends on its value). -/
def floatTruncToInt (f : Float) : Int :=
  if f < 0 then -(Int.ofNat (-f).toUInt64.toNat) else Int.ofNat f.toUInt64.toNat

/-- `reflect.Type.ConvertibleTo` together with the conversion itself, for
the pairs of modelled types that are distinct yet convertible in Go:
the numeric types among themselves.  Returns `none` when the conversion
does not exist (then Go reports the assignment type error). -/
def convertGoValue (v : GoValue) (t : GoType) : Option GoValue :=
  match v, t with
  | .vInt n, .tFloat64 => some (.vFloat (Float.ofInt n))
  | .vInt n, .tUint8 => some (.vUint8 (n % 256).toNat)
  | .vUint8 n, .tInt => some (.vInt (Int.ofNat n))
  | .vUint8 n, .tFloat64 => some (.vFloat (Float.ofNat n))
  | .vFloat f, .tInt => some (.vInt (floatTruncToInt f))
  | .vFloat f, .tUint8 => some (.vUint8 ((floatTruncToInt f) % 256).toNat)
  | _, _ => none

/-- `fmt.Errorf("type '%s' cannot be assigned a value of type '%s'", ..)`. -/
def cannotAssignMsg (fieldType valType : Str) : Str :=
  s!"type \x27{fieldType}\x27 cannot be assigned a value of type \x27{valType}\x27"

/-- The assignment tail of `decodeValue` (lines 197-209 of `decode.go`):
`val == nil` leaves the field untouched; otherwise assign when the types
are identical (or the field is the empty interface), else convert, else
fail naming both types. -/
def assignVal (val : Option GoValue) (field : GoValue) : Except GoError GoValue :=
  match val with
  | none => .ok field
  | some v =>
    match field with
    | .vIface _ => .ok (.vIface (some v))
    | _ =>
      if v.typeOf.beq field.typeOf then .ok v
      else
        match convertGoValue v field.typeOf with
        | some v2 => .ok v2
        | none =>
          .error (.decodeError (cannotAssignMsg field.typeOf.str v.typeOf.str))

/-! ## `decode.go`: the standard decoder -/

/-- `type StdDecoder struct { skipUnknownFields bool }`. -/
structure StdDecoder where
  skipUnknownFields : Bool

/-- `errFormatInvalidFieldType` applied by `fmt.Errorf`. -/
def errInvalidFieldType (expected got : Str) : Str :=
  s!"invalid field type: expected \x27{expected}\x27, got \x27{got}\x27"

/-- `errFormatInvalidFieldTypeOrType` applied by `fmt.Errorf`. -/
def errInvalidFieldTypeOrType (expected1 expected2 got : Str) : Str :=
  s!"invalid field type: expected \x27{expected1}\x27 or \x27{expected2}\x27, got \x27{got}\x27"

/-- `errFormatInvalidMapKeyTypeForStruct` applied by `fmt.Errorf`. -/
def errInvalidMapKeyTypeForStruct (got : Str) : Str :=
  s!"invalid map key type: must be \x27string\x27 when decoding structs into a map, got \x27{got}\x27"

/-- `fmt.Errorf("failed decoding struct member '%s': %w", name, err)`. -/
def wrapMemberErr (name : Str) (e : GoError) : GoError :=
  let m := e.message
  .decodeError s!"failed decoding struct member \x27{name}\x27: {m}"

/-- `fmt.Errorf("failed decoding array item at index %d: %w", i, err)`. -/
def wrapItemErr (i : Nat) (e : GoError) : GoError :=
  let m := e.message
  .decodeError s!"failed decoding array item at index {i}: {m}"

/-- `StdDecoder.decodeInt`: empty text decodes to `0`, otherwise
`strconv.Atoi` with its error propagated. -/
def StdDecoder.decodeInt (_ : StdDecoder) (value : Str) : Except GoError Int :=
  if value = "" then .ok 0
  else
    match strconvAtoi value with
    | (n, none) => .ok n
    | (_, some e) => .error e

/-- `StdDecoder.decodeDouble`: empty text decodes to `0.0`, otherwise
`strconv.ParseFloat(value, 64)`. -/
def StdDecoder.decodeDouble (_ : StdDecoder) (value : Str) : Except GoError Float :=
  if value = "" then .ok 0.0
  else goParseFloat value

/-- `fmt.Errorf("unrecognized value '%s' for boolean", value)`. -/
def unrecognizedBooleanMsg (value : Str) : Str :=
  s!"unrecognized value \x27{value}\x27 for boolean"

/-- `StdDecoder.decodeBoolean`: the `switch` over
`"1"/"true"/"TRUE"/"True"`, `"0"/"false"/"FALSE"/"False"`, `""`, with
every other text an error. -/
def StdDecoder.decodeBoolean (_ : StdDecoder) (value : Str) : Except GoError Bool :=
  if value = "1" ∨ value = "true" ∨ value = "TRUE" ∨ value = "True" then .ok true
  else if value = "0" ∨ value = "false" ∨ value = "FALSE" ∨ value = "False" then .ok false
  else if value = "" then .ok false
  else .error (.decodeError (unrecognizedBooleanMsg value))

/-- `StdDecoder.decodeBase64`: empty text decodes to the `nil` byte slice
(`none`), otherwise `base64.StdEncoding.DecodeString`. -/
def StdDecoder.decodeBase64 (_ : StdDecoder) (value : Str) : Except GoError (Option (List Nat)) :=
  if value = "" then .ok none
  else (goBase64Decode value).map some

/-- `StdDecoder.decodeDateTime`: empty text decodes to `time.Time{}`,
otherwise `time.Parse(time.RFC3339, value)`. -/
def StdDecoder.decodeDateTime (_ : StdDecoder) (value : Str) : Except GoError GoTime :=
  if value = "" then .ok GoTime.zero
  else goParseRFC3339 value

/-- The rune loop of `structMemberToFieldName`: upper-case letters and
digits pass through, lower-case letters are capitalized at a word start,
everything else is dropped; `_`, space, `-` and `.` start a new word. -/
def structMemberToFieldNameLoop : List Char → Bool → List Char
  | [], _ => []
  | v :: rest, capNext =>
    ((if 'A' ≤ v ∧ v ≤ 'Z' then [v] else []) ++
     (if '0' ≤ v ∧ v ≤ '9' then [v] else []) ++
     (if 'a' ≤ v ∧ v ≤ 'z' then (if capNext then [v.toUpper] else [v]) else [])) ++
    structMemberToFieldNameLoop rest (v == '_' || v == ' ' || v == '-' || v == '.')

/-- `structMemberToFieldName`: normalize a wire member name to the
Pascal-case Go field name. -/
def structMemberToFieldName (structName : Str) : Str :=
  ⟨structMemberToFieldNameLoop structName.data true⟩

/-- `strings.Index(tagValue, ",") != -1`. -/
def tagHasComma (s : Str) : Bool :=
  s.data.any (fun c => c == ',')

/-- `tagValue[:index]` for the index of the first comma. -/
def tagBeforeComma (s : Str) : Str :=
  ⟨s.data.takeWhile (fun c => c != ',')⟩

/-- `getFieldNameFromTag(f, "xmlrpc")`: empty for unexported fields and
absent tags; the part before the first comma (or the whole tag), with the
skip marker `-` yielding the empty key. -/
def getFieldNameFromTag {α : Type} (f : GoFieldG α) : Str :=
  if ¬ f.exported then ""
  else
    let tagValue := f.tag
    if tagValue = "" then ""
    else
      if tagHasComma tagValue then
        let pre := tagBeforeComma tagValue
        if pre = "-" then "" else pre
      else
        if tagValue ≠ "-" then tagValue else ""

/-- `findFieldByNameOrTag`: first the scan for a field whose tag-derived
key equals `fName`, then `reflect.Value.FieldByName(fName)` (exact Go
field name).  Returns the field index. -/
def findFieldByNameOrTag (fields : List (GoFieldG GoValue)) (fName : Str) : Option Nat :=
  match fields.findIdx? (fun f => getFieldNameFromTag f = fName) with
  | some i => some i
  | none => fields.findIdx? (fun f => f.name = fName)

/-- `fmt.Errorf("cannot find field '%s' on struct", fName)`. -/
def cannotFindFieldMsg (fName : Str) : Str :=
  s!"cannot find field \x27{fName}\x27 on struct"

/-- Replace the value of field `i`, the effect of `field.Field(i).Set`. -/
def updateFieldAt : List (GoFieldG GoValue) → Nat → GoValue → List (GoFieldG GoValue)
  | [], _, _ => []
  | f :: fs, 0, v => { f with val := v } :: fs
  | f :: fs, n + 1, v => f :: updateFieldAt fs n v

/-- `field.SetMapIndex(key, f)`: replace an existing key or add the entry. -/
def mapSet : List (Str × GoValue) → Str → GoValue → List (Str × GoValue)
  | [], k, v => [(k, v)]
  | (k2, v2) :: rest, k, v =>
    if k2 = k then (k, v) :: rest else (k2, v2) :: mapSet rest k v

mutual

/-- `StdDecoder.decodeValue` (decode.go lines 92-212): the `switch` over
the populated wire-value variant, in source order, followed by the shared
assignment tail (`assignVal`).  The pointer-walking first line
(`field = indirect(field)`) is outside the modelled fragment (no claim
concerns pointer-shaped fields). -/
def StdDecoder.decodeValue (d : StdDecoder) : ResponseValue → GoValue → Except GoError GoValue
  | ⟨int, int4, double, boolean, str, base64, dateTime, array, members, rawXML⟩, field =>
    match int with
    | some s =>
      (match d.decodeInt s with
       | .error e => .error e
       | .ok n => assignVal (some (.vInt n)) field)
    | none =>
    match int4 with
    | some s =>
      (match d.decodeInt s with
       | .error e => .error e
       | .ok n => assignVal (some (.vInt n)) field)
    | none =>
    match double with
    | some s =>
      (match d.decodeDouble s with
       | .error e => .error e
       | .ok f => assignVal (some (.vFloat f)) field)
    | none =>
    match boolean with
    | some s =>
      (match d.decodeBoolean s with
       | .error e => .error e
       | .ok b => assignVal (some (.vBool b)) field)
    | none =>
    match str with
    | some s => assignVal (some (.vString s)) field
    | none =>
    match base64 with
    | some s =>
      (match d.decodeBase64 s with
       | .error e => .error e
       | .ok bs => assignVal (some (.vSlice .tUint8 (bs.map (List.map GoValue.vUint8)))) field)
    | none =>
    match dateTime with
    | some s =>
      (match d.decodeDateTime s with
       | .error e => .error e
       | .ok t => assignVal (some (.vTime t)) field)
    | none =>
    match array with
    | some values =>
      (match field with
       | .vSlice elemT contents =>
         (match values with
          | [] => assignVal none (.vSlice elemT contents)
          | _ :: _ =>
            (match d.decodeArrayItems values elemT 0 with
             | .error e => .error e
             | .ok items => assignVal (some (.vSlice elemT (some items))) (.vSlice elemT contents)))
       | _ =>
         .error (.decodeError (errInvalidFieldType GoKind.kSlice.str field.kind.str)))
    | none =>
    match members with
    | _ :: _ =>
      if field.kind ≠ .kStruct ∧ field.kind ≠ .kMap then
        .error (.decodeError (errInvalidFieldTypeOrType GoKind.kStruct.str GoKind.kMap.str field.kind.str))
      else
        (match field with
         | .vStruct fs =>
           (match d.decodeStructInto members fs with
            | .error e => .error e
            | .ok fs2 => .ok (.vStruct fs2))
         | .vMap keyT elemT entries =>
           if keyT.kind ≠ .kString then
             .error (.decodeError (errInvalidMapKeyTypeForStruct keyT.kind.str))
           else
             (match d.decodeMapInto members elemT (entries.getD []) with
              | .error e => .error e
              | .ok es => .ok (.vMap keyT elemT (some es)))
         | other =>
           -- struct-kind targets that are not records in the model
           -- (`time.Time`): member resolution finds no field, as Go's
           -- scan over its unexported fields does for nonempty names.
           (match d.decodeStructInto members [] with
            | .error e => .error e
            | .ok _ => .ok other))
    | [] =>
      -- default: inner raw XML as a string
      assignVal (some (.vString rawXML)) field

/-- The element loop of the array case: each element decodes into a fresh
zero slot of the slice element type; failures are wrapped with the index. -/
def StdDecoder.decodeArrayItems (d : StdDecoder) :
    List ResponseValue → GoType → Nat → Except GoError (List GoValue)
  | [], _, _ => .ok []
  | v :: vs, elemT, i =>
    match d.decodeValue v elemT.zero with
    | .error e => .error (wrapItemErr i e)
    | .ok item =>
      (match d.decodeArrayItems vs elemT (i + 1) with
       | .error e => .error e
       | .ok rest => .ok (item :: rest))

/-- The member loop of the struct case for record targets: normalize the
member name, resolve it, decode into the resolved field; an unresolved
member is an error unless `skipUnknownFields`. -/
def StdDecoder.decodeStructInto (d : StdDecoder) :
    List (Str × ResponseValue) → List (GoFieldG GoValue) → Except GoError (List (GoFieldG GoValue))
  | [], fs => .ok fs
  | (name, v) :: rest, fs =>
    let fName := structMemberToFieldName name
    match findFieldByNameOrTag fs fName with
    | none =>
      if d.skipUnknownFields then d.decodeStructInto rest fs
      else .error (.decodeError (cannotFindFieldMsg fName))
    | some i =>
      match fs.get? i with
      | none => .error (.decodeError "reflect: Field index out of range")
      | some f =>
        match d.decodeValue v f.val with
        | .error e => .error (wrapMemberErr name e)
        | .ok v2 => d.decodeStructInto rest (updateFieldAt fs i v2)

/-- The member loop of the struct case for map targets: each member
decodes into a fresh zero of the element type and is stored at its name. -/
def StdDecoder.decodeMapInto (d : StdDecoder) :
    List (Str × ResponseValue) → GoType → List (Str × GoValue) → Except GoError (List (Str × GoValue))
  | [], _, entries => .ok entries
  | (name, v) :: rest, elemT, entries =>
    match d.decodeValue v elemT.zero with
    | .error e => .error (wrapMemberErr name e)
    | .ok f => d.decodeMapInto rest elemT (mapSet entries name f)

end

/-- `CanInterface()` holds exactly for the exported fields of the target;
`fieldsMustEqual` counts them. -/
def numExportedFields (fields : List (GoFieldG GoValue)) : Nat :=
  (fields.filter (fun f => f.exported)).length

/-- The mismatch message of `fieldsMustEqual`, naming both counts. -/
def fieldsMismatchMsg (numFields expectation : Nat) : Str :=
  s!"number of exported fields ({numFields}) on response type doesnt match expectation ({expectation})"

/-- `fieldsMustEqual(v, expectation)` on the target's field list. -/
def fieldsMustEqual (fields : List (GoFieldG GoValue)) (expectation : Nat) : Option GoError :=
  let numFields := numExportedFields fields
  if numFields ≠ expectation then some (.decodeError (fieldsMismatchMsg numFields expectation))
  else none

/-- The parameter loop of `Decode`: `vElem.Field(i)` pairs parameter `i`
with declared field `i` (exported or not), in declaration order. -/
def StdDecoder.decodeParams (d : StdDecoder) :
    List ResponseParam → List (GoFieldG GoValue) → Except GoError (List (GoFieldG GoValue))
  | [], fs => .ok fs
  | _ :: _, [] =>
    -- Go would panic (`reflect: Field index out of range`); unreachable
    -- when the field-count guard passed.
    .error (.decodeError "reflect: Field index out of range")
  | p :: ps, f :: fs =>
    match d.decodeValue p.Value f.val with
    | .error e => .error e
    | .ok v2 =>
      (match d.decodeParams ps fs with
       | .error e => .error e
       | .ok rest => .ok ({ f with val := v2 } :: rest))

/-- `StdDecoder.Decode`: the exported-field-count guard, then the
parameter loop.  Go panics on a non-struct target (reflect `NumField`);
the model returns an error for it. -/
def StdDecoder.Decode (d : StdDecoder) (response : Response) (v : GoValue) :
    Except GoError GoValue :=
  match v with
  | .vStruct fields =>
    (match fieldsMustEqual fields response.Params.length with
     | some e => .error e
     | none =>
       (match d.decodeParams response.Params fields with
        | .error e => .error e
        | .ok fs2 => .ok (.vStruct fs2)))
  | _ => .error (.decodeError "reflect: NumField of non-struct type")

/-- The member loop of `decodeFault`: only `faultCode` and `faultString`
members are inspected, everything else is skipped. -/
def faultLoop : List (Str × ResponseValue) → Fault → Fault
  | [], f => f
  | (n, v) :: ms, f =>
    if n = "faultCode" then
      let code : Int :=
        match v.Int with
        | some s => (strconvAtoi s).1
        | none =>
          match v.Int4 with
          | some s => (strconvAtoi s).1
          | none => 0
      faultLoop ms { f with Code := code }
    else if n = "faultString" then
      match v.String with
      | some s => faultLoop ms { f with String := s }
      | none => faultLoop ms f
    else faultLoop ms f

/-- `StdDecoder.decodeFault`: fold the fault struct's members over a
zero-initialized `Fault`; total, never fails. -/
def StdDecoder.decodeFault (_ : StdDecoder) (fault : ResponseFault) : Fault :=
  faultLoop fault.Value.Struct { Code := 0, String := "" }

/-- `StdDecoder.DecodeFault`: `nil` exactly when the response has no
fault branch. -/
def StdDecoder.DecodeFault (d : StdDecoder) (response : Response) : Option Fault :=
  match response.Fault with
  | none => none
  | some rf => some (d.decodeFault rf)

/-- `StdDecoder.DecodeRaw` (lines 31-42) after the parse step.  The
parser `NewResponse` lives in a file not present in the snapshot;
modelled from the spec: `parse(bytes) -> Response | ParseError` is
abstracted as the parse outcome it produced, and the lines of
`DecodeRaw` that follow it are translated directly: a parse error is
returned as-is, a fault short-circuits into `decodeFault`, otherwise
`Decode` runs. -/
def StdDecoder.DecodeRawParsed (d : StdDecoder) (parsed : Except GoError Response)
    (v : GoValue) : Except GoError GoValue :=
  match parsed with
  | .error e => .error e
  | .ok response =>
    match response.Fault with
    | some rf => .error (.faultError (d.decodeFault rf))
    | none => d.Decode response v

/-! ## The transport codec

`Codec.WriteRequest`, `Codec.ReadResponseHeader` and `Codec.Close`
coordinate through the mutex-guarded `pending` map, the unbuffered
`ready` channel and the unbuffered `shutdown` channel.  The concurrent
behaviour is modelled as an interleaving transition system:

* a *writer* is one `WriteRequest` call that has completed its HTTP
  exchange: phase `running` is just before the mutex-guarded insert
  (lines 102-108), phase `committed` is parked at `c.ready <- req.Seq`
  (line 110) with its entry in the table, phase `done` is after the send
  was received;
* the *reader* is a `ReadResponseHeader` call: `selecting` is parked in
  the `select` (line 116); a rendezvous on `ready` performs the
  mutex-guarded lookup-and-delete and populates the header from the
  looked-up entry (lines 119-125), a rendezvous on `shutdown` returns
  `net.ErrClosed` (lines 157-159) touching nothing;
* the *closer* is a `Codec.Close` call: `sending` is parked at
  `c.shutdown <- struct{}{}` (line 175).

An unbuffered channel send and its receive are one rendezvous step.  The
lock-protected regions execute atomically, which the mutex justifies. -/

/-- `type rpcCall struct { Seq uint64; ServiceMethod string;
httpResponse *http.Response }`; the HTTP response is an opaque token. -/
structure RpcCallEntry where
  Seq : Nat
  ServiceMethod : Str
  httpResponse : Nat
deriving DecidableEq, Repr

/-- Progress of one `WriteRequest` call past its HTTP exchange. -/
inductive WriterPhase where
  | running
  | committed
  | done
deriving DecidableEq, Repr

/-- One in-flight `WriteRequest` with the entry it commits. -/
structure Writer where
  call : RpcCallEntry
  phase : WriterPhase
deriving DecidableEq, Repr

/-- What a completed `ReadResponseHeader` produced: a populated header
(`resp.Seq`, `resp.ServiceMethod`, plus the body token it will go on to
read) or the `net.ErrClosed` error (the `ClosedError` of the spec). -/
inductive ReadResult where
  | header (seq : Nat) (serviceMethod : Str) (body : Nat)
  | closedErr
deriving DecidableEq, Repr

/-- Progress of the `ReadResponseHeader` caller. -/
inductive ReaderPhase where
  | notReading
  | selecting
  | returned (r : ReadResult)
deriving DecidableEq, Repr

/-- Progress of the `Close` caller. -/
inductive CloserPhase where
  | idle
  | sending
  | done
deriving DecidableEq, Repr

/-- `c.pending[seq]` on the association-list model of the map. -/
def pendingLookup : List (Nat × RpcCallEntry) → Nat → Option RpcCallEntry
  | [], _ => none
  | (k, e) :: rest, seq => if k = seq then some e else pendingLookup rest seq

/-- `delete(c.pending, seq)`. -/
def pendingErase : List (Nat × RpcCallEntry) → Nat → List (Nat × RpcCallEntry)
  | [], _ => []
  | (k, e) :: rest, seq =>
    if k = seq then pendingErase rest seq else (k, e) :: pendingErase rest seq

/-- `c.pending[seq] = entry` (insert or overwrite). -/
def pendingInsert (m : List (Nat × RpcCallEntry)) (seq : Nat) (e : RpcCallEntry) :
    List (Nat × RpcCallEntry) :=
  (seq, e) :: pendingErase m seq

/-- The shared state of one codec together with the threads using it. -/
structure CodecState where
  pending : List (Nat × RpcCallEntry)
  writers : List Writer
  reader : ReaderPhase
  closer : CloserPhase
deriving DecidableEq, Repr

/-- The interleaving steps of the codec.  `commit` is `WriteRequest`
lines 102-108 (mutex-guarded insert; the send on `ready` strictly after
it, per program order); `readyRendezvous` is the send at line 110 paired
with the `ready` arm of the `select` (lines 117-125: mutex-guarded
lookup-and-delete of the signaled id, header populated from the
looked-up entry); `shutdownRendezvous` is the send in `Close` (line 175)
paired with the `shutdown` arm (lines 157-159), which reads nothing.
A `readyRendezvous` for an id missing from the table would be a nil
dereference in Go; the model has no such step (the invariant below shows
it cannot arise). -/
inductive CodecStep : CodecState → CodecState → Prop where
  | commit (s : CodecState) (l1 l2 : List Writer) (w : Writer)
      (hw : s.writers = l1 ++ w :: l2) (hph : w.phase = .running) :
      CodecStep s { s with
        pending := pendingInsert s.pending w.call.Seq w.call,
        writers := l1 ++ { w with phase := .committed } :: l2 }
  | readyRendezvous (s : CodecState) (l1 l2 : List Writer) (w : Writer)
      (call : RpcCallEntry)
      (hr : s.reader = .selecting)
      (hw : s.writers = l1 ++ w :: l2) (hph : w.phase = .committed)
      (hlook : pendingLookup s.pending w.call.Seq = some call) :
      CodecStep s { s with
        pending := pendingErase s.pending w.call.Seq,
        writers := l1 ++ { w with phase := .done } :: l2,
        reader := .returned (.header call.Seq call.ServiceMethod call.httpResponse) }
  | startRead (s : CodecState) (hr : s.reader = .notReading) :
      CodecStep s { s with reader := .selecting }
  | closeInvoke (s : CodecState) (hc : s.closer = .idle) :
      CodecStep s { s with closer := .sending }
  | shutdownRendezvous (s : CodecState)
      (hr : s.reader = .selecting) (hc : s.closer = .sending) :
      CodecStep s { s with reader := .returned .closedErr, closer := .done }

/-- The member resolution rule of the decoder, written out as the amended
claim describes it: the first field whose tag-derived key (empty for
untagged, unexported or `-`-tagged fields) equals the looked-up name,
otherwise the first field whose Go field name equals it exactly. -/
def resolveMemberSpec (fields : List (GoFieldG GoValue)) (fName : Str) : Option Nat :=
  (fields.findIdx? (fun f => getFieldNameFromTag f = fName)).orElse
    (fun _ => fields.findIdx? (fun f => f.name = fName))

/-- The codec invariant: distinct writers carry distinct sequence ids
(the invocation layer assigns unique ids per outstanding call), and every
writer parked at the `ready` send has its own entry committed in the
pending table — the send happens only after the mutex-guarded insert. -/
def CodecInv (s : CodecState) : Prop :=
  List.Pairwise (fun w1 w2 => w1.call.Seq ≠ w2.call.Seq) s.writers ∧
  ∀ w ∈ s.writers, w.phase = .committed →
    pendingLookup s.pending w.call.Seq = some w.call

instance (s : CodecState) : Decidable (CodecInv s) := by
  unfold CodecInv
  infer_instance

deriving instance DecidableEq for Except

/-! ## Theorems for the verified claims -/

/-- C8: the member-name normalization function maps the lower-camel,
lower-snake and upper-snake spellings of the same name to the same
Pascal-case field name; in particular `myField`, `my_field` and
`my_Field` all normalize to `MyField`. -/
theorem claim_C8_member_name_normalization :
    structMemberToFieldName "myField" = "MyField" ∧
    structMemberToFieldName "my_field" = "MyField" ∧
    structMemberToFieldName "my_Field" = "MyField" :=
  ⟨rfl, rfl, rfl⟩

/-- C5 counterexample: the claim "decoding succeeds if and only if s is
1, 0, or a case-insensitive spelling of true or false" fails in both
directions: the empty string (outside the claimed set) decodes
successfully to `false`, and `tRue` (a case-insensitive spelling of
`true`) is rejected — the switch accepts only the three spellings
all-lower, all-upper and title-case. -/
theorem claim_C5_counterexample :
    StdDecoder.decodeBoolean ⟨false⟩ "" = .ok false ∧
    StdDecoder.decodeBoolean ⟨false⟩ "tRue" =
      .error (.decodeError (unrecognizedBooleanMsg "tRue")) :=
  ⟨rfl, rfl⟩

/-- C5 amended: boolean text decoding succeeds exactly on
`"1"`, `"true"`, `"TRUE"`, `"True"` (yielding `true`) and
`"0"`, `"false"`, `"FALSE"`, `"False"`, `""` (yielding `false`);
every other text yields the `DecodeError` naming the value. -/
theorem claim_C5_boolean_text_amended (d : StdDecoder) (s : Str) :
    (d.decodeBoolean s = .ok true ↔ (s = "1" ∨ s = "true" ∨ s = "TRUE" ∨ s = "True")) ∧
    (d.decodeBoolean s = .ok false ↔
      (s = "0" ∨ s = "false" ∨ s = "FALSE" ∨ s = "False" ∨ s = "")) ∧
    (¬ (s = "1" ∨ s = "true" ∨ s = "TRUE" ∨ s = "True" ∨
        s = "0" ∨ s = "false" ∨ s = "FALSE" ∨ s = "False" ∨ s = "") →
      d.decodeBoolean s = .error (.decodeError (unrecognizedBooleanMsg s))) := by
  unfold StdDecoder.decodeBoolean
  split_ifs with h1 h2 h3
  · rcases h1 with h | h | h | h <;> subst h <;> exact ⟨by decide, by decide, by decide⟩
  · rcases h2 with h | h | h | h <;> subst h <;> exact ⟨by decide, by decide, by decide⟩
  · subst h3
    exact ⟨by decide, by decide, by decide⟩
  · refine ⟨⟨(fun h => nomatch h), fun h => absurd h h1⟩,
      ⟨(fun h => nomatch h), fun h => ?_⟩, fun _ => rfl⟩
    rcases h with h | h | h | h | h
    · exact absurd (Or.inl h) h2
    · exact absurd (Or.inr (Or.inl h)) h2
    · exact absurd (Or.inr (Or.inr (Or.inl h))) h2
    · exact absurd (Or.inr (Or.inr (Or.inr h))) h2
    · exact absurd h h3

/-- C5 witness: the amended characterization applied at the concrete
input `yes`. -/
theorem claim_C5_boolean_text_amended_witness :
    StdDecoder.decodeBoolean ⟨false⟩ "yes" =
      .error (.decodeError (unrecognizedBooleanMsg "yes")) :=
  (claim_C5_boolean_text_amended ⟨false⟩ "yes").2.2 (by decide)

/-- C4: every empty typed wire element decodes to its per-type default
without error: empty string text to `""`, empty `int` and `i4` text to
`0`, empty boolean text to `false`, empty double text to `0.0`, empty
date-time text to the zero `time.Time`, empty base64 text to the `nil`
byte slice (no allocation), and an explicitly-empty array leaves the
target slice untouched (`nil`, no allocation). -/
theorem claim_C4_empty_value_defaults :
    (StdDecoder.decodeValue ⟨false⟩ ⟨none, none, none, none, some "", none, none, none, [], ""⟩
      (.vString "seed") = .ok (.vString "")) ∧
    (StdDecoder.decodeValue ⟨false⟩ ⟨some "", none, none, none, none, none, none, none, [], ""⟩
      (.vInt 7) = .ok (.vInt 0)) ∧
    (StdDecoder.decodeValue ⟨false⟩ ⟨none, some "", none, none, none, none, none, none, [], ""⟩
      (.vInt 7) = .ok (.vInt 0)) ∧
    (StdDecoder.decodeValue ⟨false⟩ ⟨none, none, none, some "", none, none, none, none, [], ""⟩
      (.vBool true) = .ok (.vBool false)) ∧
    (StdDecoder.decodeValue ⟨false⟩ ⟨none, none, some "", none, none, none, none, none, [], ""⟩
      (.vFloat 1.5) = .ok (.vFloat 0.0)) ∧
    (StdDecoder.decodeValue ⟨false⟩ ⟨none, none, none, none, none, none, some "", none, [], ""⟩
      (.vTime ⟨2024, 5, 6, 7, 8, 9, [], 120⟩) = .ok (.vTime GoTime.zero)) ∧
    (StdDecoder.decodeValue ⟨false⟩ ⟨none, none, none, none, none, some "", none, none, [], ""⟩
      (.vSlice .tUint8 (some [.vUint8 3])) = .ok (.vSlice .tUint8 none)) ∧
    (StdDecoder.decodeValue ⟨false⟩ ⟨none, none, none, none, none, none, none, some [], [], ""⟩
      (.vSlice .tInt none) = .ok (.vSlice .tInt none)) :=
  ⟨rfl, rfl, rfl, rfl, rfl, rfl, rfl, rfl⟩

/-- C6 counterexample: a struct-typed wire value with an empty member
list is not a fatal DecodeError for every target field type — the
`switch` guard `len(value.Struct) != 0` routes it to the raw-XML default
case, and with a string target field it decodes successfully to the raw
inner XML. -/
theorem claim_C6_counterexample :
    StdDecoder.decodeValue ⟨false⟩
      ⟨none, none, none, none, none, none, none, none, [], "<struct/>"⟩
      (.vString "") = .ok (.vString "<struct/>") :=
  rfl

/-- C6 amended: a wire value whose member list is empty (and with no
scalar or array variant populated) falls through to the untyped default
case: the raw inner XML is assigned as a string, succeeding on targets
that accept a string, and failing with the generic assignment type
error — not a dedicated empty-struct error — on targets that do not,
for example a bool field. -/
theorem claim_C6_empty_struct_raw_fallthrough (d : StdDecoder) (rv : ResponseValue)
    (init : Str) (b : Bool)
    (h1 : rv.Int = none) (h2 : rv.Int4 = none) (h3 : rv.Double = none)
    (h4 : rv.Boolean = none) (h5 : rv.String = none) (h6 : rv.Base64 = none)
    (h7 : rv.DateTime = none) (h8 : rv.Array = none) (h9 : rv.Struct = []) :
    d.decodeValue rv (.vString init) = .ok (.vString rv.RawXML) ∧
    d.decodeValue rv (.vBool b) =
      .error (.decodeError (cannotAssignMsg "bool" "string")) := by
  obtain ⟨i, i4, db, bo, st, b64, dt, arr, ms, raw⟩ := rv
  simp only [ResponseValue.Int] at h1
  simp only [ResponseValue.Int4] at h2
  simp only [ResponseValue.Double] at h3
  simp only [ResponseValue.Boolean] at h4
  simp only [ResponseValue.String] at h5
  simp only [ResponseValue.Base64] at h6
  simp only [ResponseValue.DateTime] at h7
  simp only [ResponseValue.Array] at h8
  simp only [ResponseValue.Struct] at h9
  subst h1 h2 h3 h4 h5 h6 h7 h8 h9
  exact ⟨rfl, rfl⟩

/-- C6 witness: the amended fall-through behaviour at the concrete
empty-struct wire value `<struct/>`. -/
theorem claim_C6_empty_struct_raw_fallthrough_witness :
    StdDecoder.decodeValue ⟨false⟩
      ⟨none, none, none, none, none, none, none, none, [], "<struct/>"⟩
      (.vString "x") = .ok (.vString "<struct/>") ∧
    StdDecoder.decodeValue ⟨false⟩
      ⟨none, none, none, none, none, none, none, none, [], "<struct/>"⟩
      (.vBool false) = .error (.decodeError (cannotAssignMsg "bool" "string")) :=
  claim_C6_empty_struct_raw_fallthrough ⟨false⟩
    ⟨none, none, none, none, none, none, none, none, [], "<struct/>"⟩
    "x" false rfl rfl rfl rfl rfl rfl rfl rfl rfl

/-- Members other than `faultCode` do not change the accumulated code. -/
theorem faultLoop_code_of_no_faultCode :
    ∀ (ms : List (Str × ResponseValue)) (acc : Fault),
      (∀ m ∈ ms, m.1 ≠ "faultCode") → (faultLoop ms acc).Code = acc.Code := by
  intro ms
  induction ms with
  | nil => intro acc _; rfl
  | cons m rest ih =>
    intro acc h
    obtain ⟨n, v⟩ := m
    have hn : n ≠ "faultCode" := h (n, v) (List.mem_cons_self _ _)
    have hrest : ∀ m ∈ rest, m.1 ≠ "faultCode" :=
      fun m hm => h m (List.mem_cons_of_mem _ hm)
    unfold faultLoop
    rw [if_neg hn]
    by_cases hs : n = "faultString"
    · rw [if_pos hs]
      cases v.String with
      | none => exact ih acc hrest
      | some s0 => exact ih _ hrest
    · rw [if_neg hs]
      exact ih acc hrest

/-- Members other than `faultString` do not change the accumulated
message. -/
theorem faultLoop_string_of_no_faultString :
    ∀ (ms : List (Str × ResponseValue)) (acc : Fault),
      (∀ m ∈ ms, m.1 ≠ "faultString") → (faultLoop ms acc).String = acc.String := by
  intro ms
  induction ms with
  | nil => intro acc _; rfl
  | cons m rest ih =>
    intro acc h
    obtain ⟨n, v⟩ := m
    have hn : n ≠ "faultString" := h (n, v) (List.mem_cons_self _ _)
    have hrest : ∀ m ∈ rest, m.1 ≠ "faultString" :=
      fun m hm => h m (List.mem_cons_of_mem _ hm)
    unfold faultLoop
    by_cases hc : n = "faultCode"
    · rw [if_pos hc]
      exact ih _ hrest
    · rw [if_neg hc, if_neg hn]
      exact ih acc hrest

/-- C3: a parsed response that carries a fault makes `DecodeRaw` return
that fault as the error — decoded with `Code` taken from the
integer-valued `faultCode` member and `String` from the string-valued
`faultString` member — and no parameter decoding into the target ever
happens (the result is never a decoded target). -/
theorem claim_C3_fault_short_circuits (d : StdDecoder) (rsp : Response)
    (rf : ResponseFault) (v : GoValue) (hf : rsp.Fault = some rf) :
    (d.DecodeRawParsed (.ok rsp) v = .error (.faultError (d.decodeFault rf))) ∧
    (∀ res, d.DecodeRawParsed (.ok rsp) v ≠ .ok res) ∧
    (∀ cv sv codeStr c s0,
      rf.Value.Struct = [("faultCode", cv), ("faultString", sv)] →
      cv.Int = some codeStr → sv.String = some s0 →
      strconvAtoi codeStr = (c, none) →
      d.decodeFault rf = ⟨c, s0⟩) := by
  have h1 : d.DecodeRawParsed (.ok rsp) v = .error (.faultError (d.decodeFault rf)) := by
    simp only [StdDecoder.DecodeRawParsed, hf]
  refine ⟨h1, fun res hres => ?_, fun cv sv codeStr c s0 hs hcv hsv hc => ?_⟩
  · rw [h1] at hres
    exact nomatch hres
  · unfold StdDecoder.decodeFault
    rw [hs]
    simp [faultLoop, hcv, hsv, hc]

/-- C3 witness: the fault of the test fixture, code `4` and message
`Too many parameters.`, decoded from a concrete response carrying it. -/
theorem claim_C3_fault_short_circuits_witness :
    StdDecoder.DecodeRawParsed ⟨false⟩
      (.ok ⟨[], some ⟨⟨none, none, none, none, none, none, none, none,
        [("faultCode", ⟨some "4", none, none, none, none, none, none, none, [], ""⟩),
         ("faultString", ⟨none, none, none, none, some "Too many parameters.",
           none, none, none, [], ""⟩)], ""⟩⟩⟩)
      (.vStruct [])
      = .error (.faultError ⟨4, "Too many parameters."⟩) := by
  have h := claim_C3_fault_short_circuits ⟨false⟩
    ⟨[], some ⟨⟨none, none, none, none, none, none, none, none,
      [("faultCode", ⟨some "4", none, none, none, none, none, none, none, [], ""⟩),
       ("faultString", ⟨none, none, none, none, some "Too many parameters.",
         none, none, none, [], ""⟩)], ""⟩⟩⟩
    ⟨⟨none, none, none, none, none, none, none, none,
      [("faultCode", ⟨some "4", none, none, none, none, none, none, none, [], ""⟩),
       ("faultString", ⟨none, none, none, none, some "Too many parameters.",
         none, none, none, [], ""⟩)], ""⟩⟩
    (.vStruct []) rfl
  rw [h.1, h.2.2 _ _ "4" 4 "Too many parameters." rfl rfl rfl (by decide)]

/-- C10: fault decoding is total — it always yields a well-formed
`Fault` and `DecodeFault` is `nil` exactly on fault-free responses;
members other than `faultCode`/`faultString` are ignored, a missing
`faultCode` member leaves `Code` zero, a `faultCode` whose text fails
integer parsing yields `Code` zero (the parse error is discarded), and a
missing `faultString` leaves the message empty. -/
theorem claim_C10_fault_decoding_total (d : StdDecoder) (rsp : Response) :
    (d.DecodeFault rsp = none ↔ rsp.Fault = none) ∧
    (∀ rf, rsp.Fault = some rf → d.DecodeFault rsp = some (d.decodeFault rf)) ∧
    (∀ n v ms acc, n ≠ "faultCode" → n ≠ "faultString" →
      faultLoop ((n, v) :: ms) acc = faultLoop ms acc) ∧
    (∀ rf, (∀ m ∈ rf.Value.Struct, m.1 ≠ "faultCode") → (d.decodeFault rf).Code = 0) ∧
    (∀ rf, (∀ m ∈ rf.Value.Struct, m.1 ≠ "faultString") → (d.decodeFault rf).String = "") ∧
    (∀ rf cv codeStr e, rf.Value.Struct = [("faultCode", cv)] →
      cv.Int = some codeStr → strconvAtoi codeStr = (0, some e) →
      d.decodeFault rf = ⟨0, ""⟩) := by
  refine ⟨?_, fun rf hf => ?_, fun n v ms acc hc hs => ?_, fun rf h => ?_,
    fun rf h => ?_, fun rf cv codeStr e hs hcv hc => ?_⟩
  · unfold StdDecoder.DecodeFault
    cases hf : rsp.Fault <;> simp
  · unfold StdDecoder.DecodeFault
    rw [hf]
  · simp only [faultLoop]
    rw [if_neg hc, if_neg hs]
  · unfold StdDecoder.decodeFault
    exact faultLoop_code_of_no_faultCode _ _ h
  · unfold StdDecoder.decodeFault
    exact faultLoop_string_of_no_faultString _ _ h
  · unfold StdDecoder.decodeFault
    rw [hs]
    simp [faultLoop, hcv, hc]

/-- C10 witness: a fault struct with an unparseable `faultCode`, an
ignored extra member and no `faultString` decodes to the zero fault. -/
theorem claim_C10_fault_decoding_total_witness :
    StdDecoder.DecodeFault ⟨false⟩ ⟨[], none⟩ = none ∧
    StdDecoder.decodeFault ⟨false⟩
      ⟨⟨none, none, none, none, none, none, none, none,
        [("faultCode", ⟨some "oops", none, none, none, none, none, none, none, [], ""⟩)],
        ""⟩⟩ = ⟨0, ""⟩ := by
  constructor
  · exact (claim_C10_fault_decoding_total ⟨false⟩ ⟨[], none⟩).1.mpr rfl
  · exact (claim_C10_fault_decoding_total ⟨false⟩ ⟨[], none⟩).2.2.2.2.2
      ⟨⟨none, none, none, none, none, none, none, none,
        [("faultCode", ⟨some "oops", none, none, none, none, none, none, none, [], ""⟩)],
        ""⟩⟩
      ⟨some "oops", none, none, none, none, none, none, none, [], ""⟩
      "oops" (.decodeError "strconv.Atoi: parsing \"oops\": invalid syntax")
      rfl rfl (by decide)

/-- Successful runs of the parameter loop decode parameter `i` into
declared field `i` and leave fields beyond the parameter list untouched. -/
theorem decodeParams_ok_spec (d : StdDecoder) :
    ∀ (ps : List ResponseParam) (fs fs2 : List (GoFieldG GoValue)),
      d.decodeParams ps fs = .ok fs2 →
      fs2.length = fs.length ∧
      (∀ i, i < ps.length →
        ∃ p f f2, ps.get? i = some p ∧ fs.get? i = some f ∧ fs2.get? i = some f2 ∧
          f2.name = f.name ∧ f2.tag = f.tag ∧ f2.exported = f.exported ∧
          d.decodeValue p.Value f.val = .ok f2.val) ∧
      (∀ i, ps.length ≤ i → fs2.get? i = fs.get? i) := by
  intro ps
  induction ps with
  | nil =>
    intro fs fs2 h
    simp only [StdDecoder.decodeParams, Except.ok.injEq] at h
    subst h
    exact ⟨rfl, fun i hi => absurd hi (by simp), fun i _ => rfl⟩
  | cons p ps ih =>
    intro fs fs2 h
    cases fs with
    | nil =>
      simp only [StdDecoder.decodeParams] at h
      exact nomatch h
    | cons f fs =>
      simp only [StdDecoder.decodeParams] at h
      cases hdv : d.decodeValue p.Value f.val with
      | error e => rw [hdv] at h; exact nomatch h
      | ok v2 =>
        rw [hdv] at h
        cases hrest : d.decodeParams ps fs with
        | error e => rw [hrest] at h; exact nomatch h
        | ok rest =>
          rw [hrest] at h
          simp only [Except.ok.injEq] at h
          subst h
          obtain ⟨hlen, hin, hout⟩ := ih fs rest hrest
          refine ⟨by simp [hlen], fun i hi => ?_, fun i hi => ?_⟩
          · cases i with
            | zero => exact ⟨p, f, { f with val := v2 }, rfl, rfl, rfl, rfl, rfl, rfl, hdv⟩
            | succ j =>
              obtain ⟨p2, f2, f3, hp, hf, hf2, he⟩ :=
                hin j (by simpa using Nat.lt_of_succ_lt_succ hi)
              exact ⟨p2, f2, f3, hp, hf, hf2, he⟩
          · cases i with
            | zero => simp at hi
            | succ j => simpa using hout j (Nat.le_of_succ_le_succ hi)

/-- C7: `Decode` rejects a target whose exported-field count differs
from the parameter count with the `DecodeError` naming both counts
(before decoding anything), and when the counts agree it decodes
parameter `i` into declared field `i`, in declaration order, leaving
later fields untouched. -/
theorem claim_C7_field_count_guard (d : StdDecoder) (rsp : Response)
    (fields : List (GoFieldG GoValue)) :
    (numExportedFields fields ≠ rsp.Params.length →
      d.Decode rsp (.vStruct fields) =
        .error (.decodeError
          (fieldsMismatchMsg (numExportedFields fields) rsp.Params.length))) ∧
    (numExportedFields fields = rsp.Params.length →
      ∀ out, d.Decode rsp (.vStruct fields) = .ok out →
        ∃ fs2, out = .vStruct fs2 ∧ fs2.length = fields.length ∧
          (∀ i, i < rsp.Params.length →
            ∃ p f f2, rsp.Params.get? i = some p ∧ fields.get? i = some f ∧
              fs2.get? i = some f2 ∧ f2.name = f.name ∧ f2.tag = f.tag ∧
              f2.exported = f.exported ∧ d.decodeValue p.Value f.val = .ok f2.val) ∧
          (∀ i, rsp.Params.length ≤ i → fs2.get? i = fields.get? i)) := by
  constructor
  · intro hne
    simp only [StdDecoder.Decode, fieldsMustEqual]
    rw [if_pos hne]
  · intro heq out hok
    simp only [StdDecoder.Decode, fieldsMustEqual] at hok
    rw [if_neg (show ¬ (numExportedFields fields ≠ rsp.Params.length) by simp [heq])] at hok
    cases hps : d.decodeParams rsp.Params fields with
    | error e =>
      simp only [hps] at hok
      exact nomatch hok
    | ok fs2 =>
      simp only [hps, Except.ok.injEq] at hok
      obtain ⟨hlen, hin, hout⟩ := decodeParams_ok_spec d rsp.Params fields fs2 hps
      exact ⟨fs2, hok.symm, hlen, hin, hout⟩

/-- C7 witness: a one-exported-field target against a two-parameter
response is rejected naming both counts, and a matching one-parameter
response decodes the parameter into the field. -/
theorem claim_C7_field_count_guard_witness :
    StdDecoder.Decode ⟨false⟩
      ⟨[⟨⟨some "1", none, none, none, none, none, none, none, [], ""⟩⟩,
        ⟨⟨some "2", none, none, none, none, none, none, none, [], ""⟩⟩], none⟩
      (.vStruct [⟨"A", "", true, .vInt 0⟩])
      = .error (.decodeError (fieldsMismatchMsg 1 2)) := by
  have h := (claim_C7_field_count_guard ⟨false⟩
    ⟨[⟨⟨some "1", none, none, none, none, none, none, none, [], ""⟩⟩,
      ⟨⟨some "2", none, none, none, none, none, none, none, [], ""⟩⟩], none⟩
    [⟨"A", "", true, .vInt 0⟩]).1 (by decide)
  exact h

/-- The single loop of `findFieldByNameOrTag` followed by the
`FieldByName` fallback agrees with the two-pass amended description. -/
theorem findFieldByNameOrTag_eq_spec (fs : List (GoFieldG GoValue)) (fName : Str) :
    findFieldByNameOrTag fs fName = resolveMemberSpec fs fName := by
  unfold findFieldByNameOrTag resolveMemberSpec
  cases fs.findIdx? (fun f => getFieldNameFromTag f = fName) <;> rfl

/-- C9 counterexample, falsifying the claimed resolution rule in two
places.  First, a `-`-tagged field is only excluded from tag matching,
not from resolution: member `skipMe` resolves to the field `SkipMe`
tagged `-` through the `FieldByName` fallback and is decoded into it,
where the claim requires exclusion and hence a fatal DecodeError.
Second, a member whose normalized name is empty (here `_`) resolves to
the first untagged field — its tag-derived key is the empty string —
although no rename tag equals the member name and no field is named by
it, where the claim again requires a fatal DecodeError. -/
theorem claim_C9_counterexample :
    StdDecoder.decodeStructInto ⟨false⟩
      [("skipMe", ⟨none, none, none, none, some "x", none, none, none, [], ""⟩)]
      [⟨"SkipMe", "-", true, .vString ""⟩]
      = .ok [⟨"SkipMe", "-", true, .vString "x"⟩] ∧
    StdDecoder.decodeStructInto ⟨false⟩
      [("_", ⟨none, none, none, none, some "y", none, none, none, [], ""⟩)]
      [⟨"Normal", "", true, .vString ""⟩]
      = .ok [⟨"Normal", "", true, .vString "y"⟩] :=
  ⟨rfl, rfl⟩

/-- C9 amended: a struct member resolves to a target field by first
matching the fields' tag-derived keys (the name part of the `xmlrpc`
tag for exported tagged fields, the empty string for untagged,
unexported or `-`-marked fields — so `-` only removes a field from tag
matching, and a member normalizing to the empty name matches the first
field with an empty key) against the normalized member name, and
otherwise by exact match on the case-normalized field name, which can
still find a `-`-tagged field; an unresolved member is a fatal
`DecodeError` naming the field unless skip-unknown-fields mode is on,
in which case the member is skipped; a resolved member is decoded into
the resolved field, errors wrapped with the member name. -/
theorem claim_C9_member_resolution (d : StdDecoder) (name : Str) (v : ResponseValue)
    (rest : List (Str × ResponseValue)) (fs : List (GoFieldG GoValue)) :
    (∀ fName, findFieldByNameOrTag fs fName = resolveMemberSpec fs fName) ∧
    (findFieldByNameOrTag fs (structMemberToFieldName name) = none →
      (d.skipUnknownFields = false →
        d.decodeStructInto ((name, v) :: rest) fs =
          .error (.decodeError (cannotFindFieldMsg (structMemberToFieldName name)))) ∧
      (d.skipUnknownFields = true →
        d.decodeStructInto ((name, v) :: rest) fs = d.decodeStructInto rest fs)) ∧
    (∀ i f, findFieldByNameOrTag fs (structMemberToFieldName name) = some i →
      fs.get? i = some f →
      d.decodeStructInto ((name, v) :: rest) fs =
        (match d.decodeValue v f.val with
         | .error e => .error (wrapMemberErr name e)
         | .ok v2 => d.decodeStructInto rest (updateFieldAt fs i v2))) := by
  refine ⟨fun fName => findFieldByNameOrTag_eq_spec fs fName, fun hnone => ?_,
    fun i f hsome hget => ?_⟩
  · constructor
    · intro hskip
      simp only [StdDecoder.decodeStructInto, hnone, hskip]
      rfl
    · intro hskip
      simp only [StdDecoder.decodeStructInto, hnone, hskip]
      rfl
  · simp only [StdDecoder.decodeStructInto, hsome, hget]

/-- C9 witness: the amended behaviour at concrete inputs — an unknown
member errors without skip mode and is skipped with it, and a resolved
member decodes into its field. -/
theorem claim_C9_member_resolution_witness :
    StdDecoder.decodeStructInto ⟨false⟩
      [("nope", ⟨none, none, none, none, some "x", none, none, none, [], ""⟩)]
      [⟨"A", "", true, .vString ""⟩]
      = .error (.decodeError (cannotFindFieldMsg "Nope")) ∧
    StdDecoder.decodeStructInto ⟨true⟩
      [("nope", ⟨none, none, none, none, some "x", none, none, none, [], ""⟩)]
      [⟨"A", "", true, .vString ""⟩]
      = .ok [⟨"A", "", true, .vString ""⟩] := by
  constructor
  · exact ((claim_C9_member_resolution ⟨false⟩ "nope"
      ⟨none, none, none, none, some "x", none, none, none, [], ""⟩ []
      [⟨"A", "", true, .vString ""⟩]).2.1 rfl).1 rfl
  · exact ((claim_C9_member_resolution ⟨true⟩ "nope"
      ⟨none, none, none, none, some "x", none, none, none, [], ""⟩ []
      [⟨"A", "", true, .vString ""⟩]).2.1 rfl).2 rfl

/-- Erasing one key leaves the others readable. -/
theorem pendingLookup_erase_ne (m : List (Nat × RpcCallEntry)) (k k2 : Nat)
    (h : k2 ≠ k) : pendingLookup (pendingErase m k) k2 = pendingLookup m k2 := by
  induction m with
  | nil => rfl
  | cons e rest ih =>
    obtain ⟨ke, ee⟩ := e
    by_cases hk : ke = k
    · subst hk
      show pendingLookup
          (if ke = ke then pendingErase rest ke else (ke, ee) :: pendingErase rest ke) k2
          = pendingLookup ((ke, ee) :: rest) k2
      rw [if_pos rfl, ih]
      show pendingLookup rest k2 = if ke = k2 then some ee else pendingLookup rest k2
      rw [if_neg (fun hh => h hh.symm)]
    · show pendingLookup
          (if ke = k then pendingErase rest k else (ke, ee) :: pendingErase rest k) k2
          = pendingLookup ((ke, ee) :: rest) k2
      rw [if_neg hk]
      show (if ke = k2 then some ee else pendingLookup (pendingErase rest k) k2)
          = if ke = k2 then some ee else pendingLookup rest k2
      rw [ih]

/-- A freshly inserted entry is read back. -/
theorem pendingLookup_insert_self (m : List (Nat × RpcCallEntry)) (k : Nat)
    (e : RpcCallEntry) : pendingLookup (pendingInsert m k e) k = some e := by
  simp [pendingInsert, pendingLookup]

/-- Inserting under one key leaves the others readable. -/
theorem pendingLookup_insert_ne (m : List (Nat × RpcCallEntry)) (k k2 : Nat)
    (e : RpcCallEntry) (h : k2 ≠ k) :
    pendingLookup (pendingInsert m k e) k2 = pendingLookup m k2 := by
  simp only [pendingInsert, pendingLookup]
  rw [if_neg (fun hh => h hh.symm)]
  exact pendingLookup_erase_ne m k k2 h

/-- Replacing the middle element of a writer list by one with the same
call preserves pairwise sequence-id distinctness. -/
theorem pairwise_middle_congr {l1 l2 : List Writer} {w w2 : Writer}
    (hp : List.Pairwise (fun a b => a.call.Seq ≠ b.call.Seq) (l1 ++ w :: l2))
    (hc : w2.call = w.call) :
    List.Pairwise (fun a b => a.call.Seq ≠ b.call.Seq) (l1 ++ w2 :: l2) := by
  rw [List.pairwise_append] at hp ⊢
  obtain ⟨h1, h2, h12⟩ := hp
  rw [List.pairwise_cons] at h2 ⊢
  refine ⟨h1, ⟨fun b hb => ?_, h2.2⟩, fun a ha b hb => ?_⟩
  · rw [hc]
    exact h2.1 b hb
  · rcases List.mem_cons.mp hb with hEq | hmem
    · subst hEq
      rw [hc]
      exact h12 a ha w (List.mem_cons_self _ _)
    · exact h12 a ha b (List.mem_cons.mpr (Or.inr hmem))

/-- A writer in the rest of the list has a sequence id different from
the middle writer's. -/
theorem seq_ne_of_side {l1 l2 : List Writer} {w w2 : Writer}
    (hp : List.Pairwise (fun a b => a.call.Seq ≠ b.call.Seq) (l1 ++ w :: l2))
    (hmem : w2 ∈ l1 ∨ w2 ∈ l2) : w2.call.Seq ≠ w.call.Seq := by
  rw [List.pairwise_append] at hp
  obtain ⟨_, h2, h12⟩ := hp
  rcases hmem with hmem | hmem
  · exact h12 w2 hmem w (List.mem_cons_self _ _)
  · rw [List.pairwise_cons] at h2
    exact fun hh => (h2.1 w2 hmem) hh.symm

/-- C1: the codec invariant — every writer parked at the `ready` send
has already committed its own entry to the pending table, and sequence
ids are unique — is preserved by every step, and any step that populates
a response header does so from the entry of the very writer whose id was
received: the header carries that writer's `Seq` and `ServiceMethod`,
exactly that entry is removed, and all other pending entries are left
untouched; hence a signaled header is never populated from a different
call's entry, whatever the completion order. -/
theorem claim_C1_correlation_by_id (s s2 : CodecState)
    (hinv : CodecInv s) (hstep : CodecStep s s2) :
    CodecInv s2 ∧
    (∀ seq m b, s.reader = .selecting →
      s2.reader = .returned (.header seq m b) →
      ∃ w, w ∈ s.writers ∧ w.phase = .committed ∧
        w.call = ⟨seq, m, b⟩ ∧
        pendingLookup s.pending seq = some w.call ∧
        s2.pending = pendingErase s.pending seq ∧
        (∀ k, k ≠ seq → pendingLookup s2.pending k = pendingLookup s.pending k)) := by
  obtain ⟨hpw, hcp⟩ := hinv
  cases hstep with
  | commit l1 l2 w hw hph =>
    refine ⟨⟨?_, ?_⟩, ?_⟩
    · rw [hw] at hpw
      exact pairwise_middle_congr hpw rfl
    · intro w2 hmem hcomm
      simp only []
      rcases List.mem_append.mp hmem with hmem1 | hmem2
      · have hne : w2.call.Seq ≠ w.call.Seq := by
          rw [hw] at hpw
          exact seq_ne_of_side hpw (Or.inl hmem1)
        rw [pendingLookup_insert_ne _ _ _ _ hne]
        exact hcp w2 (hw ▸ List.mem_append.mpr (Or.inl hmem1)) hcomm
      · rcases List.mem_cons.mp hmem2 with hEq | hmem2
        · subst hEq
          exact pendingLookup_insert_self _ _ _
        · have hne : w2.call.Seq ≠ w.call.Seq := by
            rw [hw] at hpw
            exact seq_ne_of_side hpw (Or.inr hmem2)
          rw [pendingLookup_insert_ne _ _ _ _ hne]
          exact hcp w2 (hw ▸ List.mem_append.mpr (Or.inr (List.mem_cons.mpr (Or.inr hmem2)))) hcomm
    · intro seq m b hsel hret
      rw [hsel] at hret
      exact nomatch hret
  | readyRendezvous l1 l2 w call hr hw hph hlook =>
    have hwmem : w ∈ s.writers := hw ▸ List.mem_append.mpr (Or.inr (List.mem_cons_self _ _))
    have hcall : pendingLookup s.pending w.call.Seq = some w.call := hcp w hwmem hph
    have hcalleq : call = w.call := by
      rw [hcall] at hlook
      exact (Option.some.injEq _ _ ▸ hlook).symm
    refine ⟨⟨?_, ?_⟩, ?_⟩
    · rw [hw] at hpw
      exact pairwise_middle_congr hpw rfl
    · intro w2 hmem hcomm
      simp only []
      rcases List.mem_append.mp hmem with hmem1 | hmem2
      · have hne : w2.call.Seq ≠ w.call.Seq := by
          rw [hw] at hpw
          exact seq_ne_of_side hpw (Or.inl hmem1)
        rw [pendingLookup_erase_ne _ _ _ hne]
        exact hcp w2 (hw ▸ List.mem_append.mpr (Or.inl hmem1)) hcomm
      · rcases List.mem_cons.mp hmem2 with hEq | hmem2
        · subst hEq
          exact nomatch hcomm
        · have hne : w2.call.Seq ≠ w.call.Seq := by
            rw [hw] at hpw
            exact seq_ne_of_side hpw (Or.inr hmem2)
          rw [pendingLookup_erase_ne _ _ _ hne]
          exact hcp w2 (hw ▸ List.mem_append.mpr (Or.inr (List.mem_cons.mpr (Or.inr hmem2)))) hcomm
    · intro seq m b _ hret
      simp only [ReaderPhase.returned.injEq, ReadResult.header.injEq] at hret
      obtain ⟨hseq, hm, hb⟩ := hret
      subst hcalleq
      refine ⟨w, hwmem, hph, ?_, ?_, ?_, ?_⟩
      · rw [← hseq, ← hm, ← hb]
      · rw [← hseq]
        exact hcall
      · rw [← hseq]
      · intro k hk
        rw [← hseq] at hk
        exact pendingLookup_erase_ne _ _ _ hk
  | startRead hr =>
    refine ⟨⟨hpw, hcp⟩, ?_⟩
    intro seq m b hsel _
    rw [hr] at hsel
    exact nomatch hsel
  | closeInvoke hc =>
    refine ⟨⟨hpw, hcp⟩, ?_⟩
    intro seq m b hsel hret
    rw [hsel] at hret
    exact nomatch hret
  | shutdownRendezvous hr hc =>
    exact ⟨⟨hpw, hcp⟩, fun seq m b _ hret => nomatch (ReaderPhase.returned.inj hret)⟩

/-- C1 witness: one committed writer with id 1; the ready rendezvous
populates the header from exactly that writer's entry and removes it. -/
theorem claim_C1_correlation_by_id_witness :
    ∃ w, w ∈ ([⟨⟨1, "my.method", 7⟩, .committed⟩] : List Writer) ∧
      w.phase = .committed ∧
      w.call = ⟨1, "my.method", 7⟩ ∧
      pendingLookup [(1, ⟨1, "my.method", 7⟩)] 1 = some w.call ∧
      pendingErase [(1, ⟨1, "my.method", 7⟩)] 1 =
        pendingErase [(1, ⟨1, "my.method", 7⟩)] 1 ∧
      (∀ k, k ≠ 1 →
        pendingLookup (pendingErase [(1, ⟨1, "my.method", 7⟩)] 1) k =
          pendingLookup [(1, ⟨1, "my.method", 7⟩)] k) :=
  (claim_C1_correlation_by_id
    ⟨[(1, ⟨1, "my.method", 7⟩)], [⟨⟨1, "my.method", 7⟩, .committed⟩], .selecting, .idle⟩
    ⟨pendingErase [(1, ⟨1, "my.method", 7⟩)] 1,
      [] ++ ⟨⟨1, "my.method", 7⟩, .done⟩ :: [], .returned (.header 1 "my.method" 7), .idle⟩
    (by decide)
    (CodecStep.readyRendezvous
      ⟨[(1, ⟨1, "my.method", 7⟩)], [⟨⟨1, "my.method", 7⟩, .committed⟩], .selecting, .idle⟩
      [] [] ⟨⟨1, "my.method", 7⟩, .committed⟩
      ⟨1, "my.method", 7⟩ rfl rfl rfl rfl)).2 1 "my.method" 7 rfl rfl

/-- C2: a reader parked in the select with no ready completion available
(no committed writer) while `Close` is parked on the shutdown channel
can take the shutdown rendezvous, which returns the closed-connection
error `net.ErrClosed` with the pending table untouched (no further
reads); and every step either leaves that reader parked or unparks it
with exactly that closed error — it is never left without the shutdown
step, and it cannot be unparked any other way. -/
theorem claim_C2_close_unblocks_reader (s : CodecState)
    (hr : s.reader = .selecting) (hc : s.closer = .sending)
    (hnc : ∀ w ∈ s.writers, w.phase ≠ .committed) :
    (∃ s2, CodecStep s s2 ∧ s2.reader = .returned .closedErr ∧
      s2.pending = s.pending) ∧
    (∀ s2, CodecStep s s2 → s2.reader = .selecting ∨
      (s2.reader = .returned .closedErr ∧ s2.pending = s.pending)) := by
  constructor
  · exact ⟨_, CodecStep.shutdownRendezvous s hr hc, rfl, rfl⟩
  · intro s2 hstep
    cases hstep with
    | commit l1 l2 w hw hph => exact Or.inl hr
    | readyRendezvous l1 l2 w call hr2 hw hph hlook =>
      have : w ∈ s.writers := hw ▸ List.mem_append.mpr (Or.inr (List.mem_cons_self _ _))
      exact absurd hph (hnc w this)
    | startRead hr2 =>
      rw [hr] at hr2
      exact nomatch hr2
    | closeInvoke hc2 =>
      rw [hc] at hc2
      exact nomatch hc2
    | shutdownRendezvous hr2 hc2 => exact Or.inr ⟨rfl, rfl⟩

/-- C2 witness: the empty codec with a parked reader and a parked
closer; the shutdown rendezvous exists and every possible step returns
the closed error. -/
theorem claim_C2_close_unblocks_reader_witness :
    ∃ s2, CodecStep ⟨[], [], .selecting, .sending⟩ s2 ∧
      s2.reader = .returned .closedErr ∧
      s2.pending = ([] : List (Nat × RpcCallEntry)) :=
  (claim_C2_close_unblocks_reader ⟨[], [], .selecting, .sending⟩ rfl rfl
    (by intro w hw; exact absurd hw (List.not_mem_nil w))).1

end GoXmlrpc
